import Mathlib

/-!
Verification development for the `user-storage-helper` repository
(`src/index.ts` / `src/index.js`, two near-identical variants of one design).

The library is a thin structured accessor over two host key/value stores
(`localStorage` / `sessionStorage`).  Stored entries are JSON text; the
accessor decodes the text (defaulting to the empty object `{}` when the
entry is absent), reads or mutates either the whole decoded Record or one
field (`item`) of it, and re-encodes.

Shallow-embedding conventions:
* The JSON codec is external to the repository (spec section 1 declares it
  out of scope), so the backing store holds decoded JSON values directly;
  `stringify` below realises the encode direction where a claim speaks
  about the stored text itself.
* JavaScript `undefined` is modelled as `none` of an `Option`.
* Thrown JS exceptions are modelled with `Except`; every `throw` in the
  source happens before the single trailing `storage.setItem` write of the
  operation, so an erroring operation leaves the store untouched
  (see `afterSet`/`afterRemove`/`afterClear`).
* Both source files are ES modules (`export default`), hence strict-mode
  code: property assignment on a primitive value throws a `TypeError`,
  and the lexical `this` captured by the arrow functions inside `chain`
  is `undefined` at module top level.
* Prototype-inherited properties (e.g. `toString` on a number) are not
  modelled: property reads on non-object values yield `undefined` except
  for the own `length`/index properties of strings and arrays.
-/

namespace StorageUtil

/-- A JSON-serializable value, the domain of `JSON.parse`/`JSON.stringify`.
Numbers are modelled as integers (no claim involves non-integral numbers).
Objects are insertion-ordered association lists, as JS objects are. -/
inductive JSValue where
  | null : JSValue
  | bool (b : Bool) : JSValue
  | num (n : Int) : JSValue
  | str (s : String) : JSValue
  | arr (elems : List JSValue) : JSValue
  | obj (fields : List (String × JSValue)) : JSValue
deriving Repr

/-- JavaScript truthiness of a JSON value (`!v` in the source's
`ensureParams` is the negation of this). -/
def truthy : JSValue → Bool
  | .null => false
  | .bool b => b
  | .num n => n != 0
  | .str s => s != ""
  | .arr _ => true
  | .obj _ => true

/-- Errors the source can throw: the explicit `new Error('缺少参数: ' + param)`
of `ensureParams`, and the `TypeError`s of strict-mode property access. -/
inductive JSError where
  | missingParameter (param : String) : JSError
  | typeError : JSError
deriving Repr, DecidableEq

/-- The message carried by a thrown error (`ensureParams` builds the
missing-parameter message from the field name). -/
def errorMessage : JSError → String
  | .missingParameter param => "缺少参数: " ++ param
  | .typeError => "TypeError"

/-- `'local' | 'session'`, selecting the backing store. -/
inductive StorageType where
  | «local» : StorageType
  | session : StorageType
deriving Repr, DecidableEq

/-- The request object `{ type, name, item, value }`; absent fields are
`none` (JS `undefined`). -/
structure StorageProps where
  type : Option StorageType := none
  name : Option String := none
  item : Option String := none
  value : Option JSValue := none

/-- An insertion-ordered string-keyed association list.  It models both a
JS object's fields and one backing store's `name ↦ decoded JSON value`
contents (keys are unique in every list the code builds). -/
abbrev Entries := List (String × JSValue)

/-- First-match lookup: `o[k]`, or a store's `getItem` (absent gives `none`). -/
def getEntry : Entries → String → Option JSValue
  | [], _ => none
  | (k, v) :: rest, n => if k = n then some v else getEntry rest n

/-- `o[k] = v`, or a store's `setItem`: replace the first binding of the key
in place, appending when the key is absent. -/
def setEntry : Entries → String → JSValue → Entries
  | [], n, v => [(n, v)]
  | (k, w) :: rest, n, v =>
      if k = n then (n, v) :: rest else (k, w) :: setEntry rest n v

/-- `delete o[k]`, or a store's `removeItem`: drop the key's binding. -/
def delEntry : Entries → String → Entries
  | [], _ => []
  | (k, w) :: rest, n => if k = n then delEntry rest n else (k, w) :: delEntry rest n

/-- The two backing stores (`window.localStorage` / `window.sessionStorage`),
holding decoded JSON values per name. -/
structure StorageState where
  localStore : Entries
  sessionStore : Entries
deriving Repr

/-- The store selected by `window[type + 'Storage']`. -/
def storageOf : StorageType → StorageState → Entries
  | .«local», st => st.localStore
  | .session, st => st.sessionStore

/-- `storage.setItem(name, ...)` on the selected store. -/
def setStorageEntry (t : StorageType) (st : StorageState) (n : String) (v : JSValue) :
    StorageState :=
  match t with
  | .«local» => { st with localStore := setEntry st.localStore n v }
  | .session => { st with sessionStore := setEntry st.sessionStore n v }

/-- `storage.removeItem(name)` on the selected store. -/
def removeStorageEntry (t : StorageType) (st : StorageState) (n : String) : StorageState :=
  match t with
  | .«local» => { st with localStore := delEntry st.localStore n }
  | .session => { st with sessionStore := delEntry st.sessionStore n }

/-- `storage.clear()` on the selected store. -/
def clearStorage (t : StorageType) (st : StorageState) : StorageState :=
  match t with
  | .«local» => { st with localStore := [] }
  | .session => { st with sessionStore := [] }

/-- `JSON.parse(storage.getItem(name) || '{}')`: the decoded Record under a
name, defaulting to the empty object when no entry is stored. -/
def decodedRecord (t : StorageType) (st : StorageState) (n : String) : JSValue :=
  (getEntry (storageOf t st) n).getD (.obj [])

/-- A string that is a canonical array-index property key (`"0"`, `"17"`, …;
not `"01"`, `"+1"`, or non-numeric text). -/
def canonicalIndex (s : String) : Option Nat :=
  match s.toNat? with
  | some n => if toString n = s then some n else none
  | none => none

/-- `storedData[item]` (property read).  Reading a property of `null`
throws; objects are field lookup; strings and arrays expose their own
`length` and index properties; other primitives yield `undefined`
(prototype-inherited properties are not modelled). -/
def propGet : JSValue → String → Except JSError (Option JSValue)
  | .null, _ => .error .typeError
  | .obj fields, k => .ok (getEntry fields k)
  | .arr elems, k =>
      if k = "length" then .ok (some (.num (Int.ofNat elems.length)))
      else
        match canonicalIndex k with
        | some i => .ok elems[i]?
        | none => .ok none
  | .str s, k =>
      if k = "length" then .ok (some (.num (Int.ofNat s.length)))
      else
        match canonicalIndex k with
        | some i => .ok ((s.toList[i]?).map (fun c => JSValue.str (String.mk [c])))
        | none => .ok none
  | _, _ => .ok none

/-- `storedData[item] = value` (strict-mode property assignment).  Objects
are field update; on `null` it throws; on number/string/boolean primitives
strict mode throws a `TypeError` (cannot create a property on a primitive).
On arrays an index write updates or extends the array (holes re-encode as
`null`); assignment to `"length"` and non-index expando properties is not
modelled beyond its effect on the JSON re-encode, which drops them. -/
def propSet : JSValue → String → JSValue → Except JSError JSValue
  | .obj fields, k, v => .ok (.obj (setEntry fields k v))
  | .arr elems, k, v =>
      (match canonicalIndex k with
       | some i =>
           if i < elems.length then .ok (.arr (elems.set i v))
           else .ok (.arr (elems ++ List.replicate (i - elems.length) .null ++ [v]))
       | none => .ok (.arr elems))
  | .null, _, _ => .error .typeError
  | _, _, _ => .error .typeError

/-- `delete storedData[item]` (strict mode).  Objects drop the field (no-op
when absent); on `null` it throws; string index and `length` properties are
non-configurable, so deleting them throws; deleting an array element leaves
a hole that the JSON re-encode renders as `null`; any other delete on a
primitive targets an absent property and succeeds without effect. -/
def propDelete : JSValue → String → Except JSError JSValue
  | .null, _ => .error .typeError
  | .obj fields, k => .ok (.obj (delEntry fields k))
  | .arr elems, k =>
      if k = "length" then .error .typeError
      else
        (match canonicalIndex k with
         | some i => if i < elems.length then .ok (.arr (elems.set i .null)) else .ok (.arr elems)
         | none => .ok (.arr elems))
  | .str s, k =>
      if k = "length" then .error .typeError
      else
        (match canonicalIndex k with
         | some i => if i < s.length then .error .typeError else .ok (.str s)
         | none => .ok (.str s))
  | v, _ => .ok v

/-- Truthiness of one request field, as `ensureParams`'s `!props[param]`
sees it (an absent field is `undefined`, hence falsy). -/
def propField (props : StorageProps) : String → Bool
  | "type" => props.type.isSome
  | "name" => props.name.getD "" != ""
  | "item" => props.item.getD "" != ""
  | "value" => (props.value.map truthy).getD false
  | _ => false

/-- `ensureParams(requiredParams, props)`: throw `缺少参数: <param>` at the
first required field that is absent or falsy. -/
def ensureParams (requiredParams : List String) (props : StorageProps) :
    Except JSError Unit :=
  match requiredParams.find? (fun param => !propField props param) with
  | some param => .error (.missingParameter param)
  | none => .ok ()

/-- `get({ type, name, item })`: decode the stored Record (default `{}`), and
return the addressed field when a truthy `item` is given, else the whole
Record.  The fall-through arm mirrors the fault of reading a property of the
absent `window[undefined + 'Storage']`; it is unreachable because
`ensureParams` has already thrown. -/
def get (props : StorageProps) (st : StorageState) : Except JSError (Option JSValue) :=
  match ensureParams ["type", "name"] { type := props.type, name := props.name } with
  | .error e => .error e
  | .ok _ =>
    match props.type, props.name with
    | some t, some n =>
        let storedData := decodedRecord t st n
        let item := props.item.getD ""
        if item != "" then propGet storedData item else .ok (some storedData)
    | _, _ => .error .typeError

/-- `set({ type, name, item, value })`: decode the stored Record, assign the
addressed field (truthy `item`) or replace the whole Record, then re-encode
and write back. -/
def set (props : StorageProps) (st : StorageState) : Except JSError StorageState :=
  match ensureParams ["type", "name", "value"]
      { type := props.type, name := props.name, value := props.value } with
  | .error e => .error e
  | .ok _ =>
    match props.type, props.name, props.value with
    | some t, some n, some value =>
        let storedData := decodedRecord t st n
        let item := props.item.getD ""
        if item != "" then
          match propSet storedData item value with
          | .error e => .error e
          | .ok newData => .ok (setStorageEntry t st n newData)
        else .ok (setStorageEntry t st n value)
    | _, _, _ => .error .typeError

/-- `remove({ type, name, item })`: with a truthy `item`, decode, delete the
field and write back; with no (or empty) `item`, remove the whole entry. -/
def remove (props : StorageProps) (st : StorageState) : Except JSError StorageState :=
  match ensureParams ["type", "name"] { type := props.type, name := props.name } with
  | .error e => .error e
  | .ok _ =>
    match props.type, props.name with
    | some t, some n =>
        let item := props.item.getD ""
        if item != "" then
          let storedData := decodedRecord t st n
          match propDelete storedData item with
          | .error e => .error e
          | .ok newData => .ok (setStorageEntry t st n newData)
        else .ok (removeStorageEntry t st n)
    | _, _ => .error .typeError

/-- `clear({ type })`: bulk-clear the selected namespace. -/
def clear (props : StorageProps) (st : StorageState) : Except JSError StorageState :=
  match ensureParams ["type"] { type := props.type } with
  | .error e => .error e
  | .ok _ =>
    match props.type with
    | some t => .ok (clearStorage t st)
    | none => .error .typeError

/-- The store as the caller observes it after `set`: every `throw` in the
source (`ensureParams`, strict-mode property faults) happens before the
single trailing `storage.setItem`, so an erroring call leaves the store
unchanged. -/
def afterSet (props : StorageProps) (st : StorageState) : StorageState :=
  match set props st with
  | .ok st' => st'
  | .error _ => st

/-- The store after `remove`, unchanged when the call threw. -/
def afterRemove (props : StorageProps) (st : StorageState) : StorageState :=
  match remove props st with
  | .ok st' => st'
  | .error _ => st

/-- The store after `clear`, unchanged when the call threw. -/
def afterClear (props : StorageProps) (st : StorageState) : StorageState :=
  match clear props st with
  | .ok st' => st'
  | .error _ => st

/-- The namespace other than the given one. -/
def other : StorageType → StorageType
  | .«local» => .session
  | .session => .«local»

/-- Both stores empty. -/
def emptyState : StorageState := ⟨[], []⟩

/-- Does the decoded Record fall outside the object shapes — the JSON
primitives `null`, booleans, numbers and strings?  (JS arrays are objects
and accept property writes, so they are excluded.) -/
def isNonObjectPrimitive : JSValue → Bool
  | .null => true
  | .bool _ => true
  | .num _ => true
  | .str _ => true
  | .arr _ => false
  | .obj _ => false

/-- A state whose durable store holds the well-formed JSON text `null`
under the name `x`. -/
def stNull : StorageState := ⟨[("x", .null)], []⟩

/-- A state whose durable store holds the number `5` under the name `x`. -/
def stNum : StorageState := ⟨[("x", .num 5)], []⟩

/-- A state whose durable store holds the object `{a: 1, b: 2}` under the
name `x`. -/
def stObj : StorageState := ⟨[("x", .obj [("a", .num 1), ("b", .num 2)])], []⟩

/-- One character of `JSON.stringify`'s string encoding (control-character
escapes are omitted; no claim depends on them). -/
def escapeJsonChar (c : Char) : String :=
  if c = '\\' then "\\\\" else if c = '\"' then "\\\"" else String.mk [c]

/-- `JSON.stringify`'s string-content encoding. -/
def escapeJson (s : String) : String :=
  String.join (s.toList.map escapeJsonChar)

mutual

/-- `JSON.stringify(value)`: the text written to the backing store. -/
def stringify : JSValue → String
  | .null => "null"
  | .bool true => "true"
  | .bool false => "false"
  | .num n => toString n
  | .str s => "\"" ++ escapeJson s ++ "\""
  | .arr elems => "[" ++ stringifyElems elems ++ "]"
  | .obj fields => "\x7b" ++ stringifyMembers fields ++ "\x7d"

/-- Comma-separated array elements of `JSON.stringify`. -/
def stringifyElems : List JSValue → String
  | [] => ""
  | [v] => stringify v
  | v :: rest => stringify v ++ "," ++ stringifyElems rest

/-- Comma-separated `"key":value` members of `JSON.stringify`. -/
def stringifyMembers : List (String × JSValue) → String
  | [] => ""
  | [(k, v)] => "\"" ++ escapeJson k ++ "\":" ++ stringify v
  | (k, v) :: rest =>
      "\"" ++ escapeJson k ++ "\":" ++ stringify v ++ "," ++ stringifyMembers rest

end

/-- The `(type, name)`-bound view `chain({ type, name })` returns.  The
source performs no parameter validation here; we model the well-formed
case where both `type` and `name` are supplied. -/
structure ChainAccessor where
  type : StorageType
  name : String
deriving Repr, DecidableEq

/-- `chain({ type, name })`. -/
def chain (t : StorageType) (n : String) : ChainAccessor := ⟨t, n⟩

/-- The value of the `return this` at the end of each chained mutator.  The
mutators are arrow functions, so `this` is the lexical `this` of the
enclosing module-level IIFE — `undefined` in an ES module.  The returned
value is therefore never a reference to the bound accessor. -/
def chainLexicalThis : Option ChainAccessor := none

/-- The bound `set(item, value)`: assign the field, write back, `return this`.
Unlike the top-level `set` there is no parameter validation and no
truthiness test on `item`. -/
def ChainAccessor.set (c : ChainAccessor) (item : String) (value : JSValue)
    (st : StorageState) : Except JSError (Option ChainAccessor × StorageState) :=
  match propSet (decodedRecord c.type st c.name) item value with
  | .error e => .error e
  | .ok newData => .ok (chainLexicalThis, setStorageEntry c.type st c.name newData)

/-- The bound `remove(item)`: delete the field, write back, `return this`. -/
def ChainAccessor.remove (c : ChainAccessor) (item : String) (st : StorageState) :
    Except JSError (Option ChainAccessor × StorageState) :=
  match propDelete (decodedRecord c.type st c.name) item with
  | .error e => .error e
  | .ok newData => .ok (chainLexicalThis, setStorageEntry c.type st c.name newData)

/-- The bound `get(item?)`: read the whole Record or one field. -/
def ChainAccessor.get (c : ChainAccessor) (item : Option String) (st : StorageState) :
    Except JSError (Option JSValue) :=
  let storedData := decodedRecord c.type st c.name
  if item.getD "" != "" then propGet storedData (item.getD "")
  else .ok (some storedData)

/-- The bound `clear()`: remove the bound name's entry (not the whole
namespace), `return this`.  No storage read happens, so no error path. -/
def ChainAccessor.clear (c : ChainAccessor) (st : StorageState) :
    Option ChainAccessor × StorageState :=
  (chainLexicalThis, removeStorageEntry c.type st c.name)

/-! ### Association-list lemmas -/

theorem getEntry_setEntry_self (s : Entries) (n : String) (v : JSValue) :
    getEntry (setEntry s n v) n = some v := by
  induction s with
  | nil => simp [setEntry, getEntry]
  | cons p rest ih =>
      obtain ⟨k, w⟩ := p
      by_cases h : k = n
      · simp [setEntry, getEntry, h]
      · simp [setEntry, getEntry, h, ih]

theorem getEntry_setEntry_other (s : Entries) (n m : String) (v : JSValue)
    (h : m ≠ n) : getEntry (setEntry s n v) m = getEntry s m := by
  induction s with
  | nil => simp [setEntry, getEntry, Ne.symm h]
  | cons p rest ih =>
      obtain ⟨k, w⟩ := p
      by_cases hk : k = n
      · subst hk
        simp [setEntry, getEntry, Ne.symm h]
      · simp [setEntry, getEntry, hk, ih]

theorem getEntry_delEntry_self (s : Entries) (n : String) :
    getEntry (delEntry s n) n = none := by
  induction s with
  | nil => simp [delEntry, getEntry]
  | cons p rest ih =>
      obtain ⟨k, w⟩ := p
      by_cases h : k = n
      · simp [delEntry, h, ih]
      · simp [delEntry, getEntry, h, ih]

theorem getEntry_delEntry_other (s : Entries) (n m : String) (h : m ≠ n) :
    getEntry (delEntry s n) m = getEntry s m := by
  induction s with
  | nil => simp [delEntry]
  | cons p rest ih =>
      obtain ⟨k, w⟩ := p
      by_cases hk : k = n
      · subst hk
        simp [delEntry, getEntry, Ne.symm h, ih]
      · simp [delEntry, getEntry, hk, ih]

theorem delEntry_absent (s : Entries) (n : String) (h : getEntry s n = none) :
    delEntry s n = s := by
  induction s with
  | nil => simp [delEntry]
  | cons p rest ih =>
      obtain ⟨k, w⟩ := p
      by_cases hk : k = n
      · simp [getEntry, hk] at h
      · simp [getEntry, hk] at h
        simp [delEntry, hk, ih h]

theorem delEntry_delEntry (s : Entries) (n : String) :
    delEntry (delEntry s n) n = delEntry s n :=
  delEntry_absent _ _ (getEntry_delEntry_self s n)

theorem setEntry_setEntry_self (s : Entries) (n : String) (v : JSValue) :
    setEntry (setEntry s n v) n v = setEntry s n v := by
  induction s with
  | nil => simp [setEntry]
  | cons p rest ih =>
      obtain ⟨k, w⟩ := p
      by_cases h : k = n
      · simp [setEntry, h]
      · simp [setEntry, h, ih]

/-! ### Storage-state lemmas -/

theorem storageOf_setStorageEntry_self (t : StorageType) (st : StorageState)
    (n : String) (v : JSValue) :
    storageOf t (setStorageEntry t st n v) = setEntry (storageOf t st) n v := by
  cases t <;> rfl

theorem storageOf_setStorageEntry_other (t : StorageType) (st : StorageState)
    (n : String) (v : JSValue) :
    storageOf (other t) (setStorageEntry t st n v) = storageOf (other t) st := by
  cases t <;> rfl

theorem storageOf_clearStorage_self (t : StorageType) (st : StorageState) :
    storageOf t (clearStorage t st) = [] := by
  cases t <;> rfl

theorem storageOf_clearStorage_other (t : StorageType) (st : StorageState) :
    storageOf (other t) (clearStorage t st) = storageOf (other t) st := by
  cases t <;> rfl

theorem setStorageEntry_setStorageEntry_self (t : StorageType) (st : StorageState)
    (n : String) (v : JSValue) :
    setStorageEntry t (setStorageEntry t st n v) n v = setStorageEntry t st n v := by
  cases t <;> simp [setStorageEntry, setEntry_setEntry_self]

theorem removeStorageEntry_absent (t : StorageType) (st : StorageState) (n : String)
    (h : getEntry (storageOf t st) n = none) : removeStorageEntry t st n = st := by
  cases t <;> simp [storageOf] at h <;> simp [removeStorageEntry, delEntry_absent _ _ h]

theorem decodedRecord_setStorageEntry_self (t : StorageType) (st : StorageState)
    (n : String) (v : JSValue) :
    decodedRecord t (setStorageEntry t st n v) n = v := by
  simp [decodedRecord, storageOf_setStorageEntry_self, getEntry_setEntry_self]

/-! ### Parameter-check lemmas -/

theorem ensureParams_type_name_ok (t : StorageType) (n : String) (hn : n ≠ "") :
    ensureParams ["type", "name"] { type := some t, name := some n } = .ok () := by
  have hb : (n != "") = true := by simpa using hn
  simp [ensureParams, propField, hb]

theorem ensureParams_type_name_value_ok (t : StorageType) (n : String) (v : JSValue)
    (hn : n ≠ "") (hv : truthy v = true) :
    ensureParams ["type", "name", "value"]
      { type := some t, name := some n, value := some v } = .ok () := by
  have hb : (n != "") = true := by simpa using hn
  simp [ensureParams, propField, hb, hv]

theorem ensureParams_type_ok (t : StorageType) :
    ensureParams ["type"] { type := some t } = .ok () := by
  simp [ensureParams, propField]

/-! ### Claim theorems -/

/-- C1, counterexample: `false` is a JSON-serializable primitive, but
`ensureParams` tests truthiness, so `set({type, name, value: false})`
throws `缺少参数: value` instead of writing, and the immediately following
`get` returns the prior (empty) Record rather than `false`. -/
theorem c1_falsy_value_counterexample :
    set ⟨some .«local», some "x", none, some (.bool false)⟩ emptyState
      = .error (.missingParameter "value")
  ∧ get ⟨some .«local», some "x", none, none⟩
      (afterSet ⟨some .«local», some "x", none, some (.bool false)⟩ emptyState)
      ≠ .ok (some (.bool false)) := by
  refine ⟨rfl, ?_⟩
  have h : get ⟨some .«local», some "x", none, none⟩
      (afterSet ⟨some .«local», some "x", none, some (.bool false)⟩ emptyState)
      = .ok (some (.obj [])) := rfl
  simp [h]

/-- C1, amended: for every namespace, name and *truthy* JSON-serializable
value V, `get({type, name})` immediately after `set({type, name, value: V})`
(no item) returns V unchanged. -/
theorem c1_roundtrip_truthy (t : StorageType) (n : String) (v : JSValue)
    (st : StorageState) (hn : n ≠ "") (hv : truthy v = true) :
    ∃ st', set ⟨some t, some n, none, some v⟩ st = .ok st'
      ∧ get ⟨some t, some n, none, none⟩ st' = .ok (some v) := by
  refine ⟨setStorageEntry t st n v, ?_, ?_⟩
  · simp [set, ensureParams_type_name_value_ok t n v hn hv]
  · simp [get, ensureParams_type_name_ok t n hn, decodedRecord_setStorageEntry_self]

theorem c1_roundtrip_truthy_witness :
    ∃ st', set ⟨some .«local», some "userData", none,
          some (.obj [("userId", .num 123)])⟩ emptyState = .ok st'
      ∧ get ⟨some .«local», some "userData", none, none⟩ st'
          = .ok (some (.obj [("userId", .num 123)])) :=
  c1_roundtrip_truthy .«local» "userData" (.obj [("userId", .num 123)]) emptyState
    (by decide) rfl

/-- C2, counterexample: the claim quantifies over every value V, but for the
JSON-serializable `false` the item-qualified `set` throws `缺少参数: value`
(truthiness check), so the following `get(item)` yields `undefined`, not V. -/
theorem c2_falsy_value_counterexample :
    set ⟨some .«local», some "x", some "a", some (.bool false)⟩ emptyState
      = .error (.missingParameter "value")
  ∧ get ⟨some .«local», some "x", some "a", none⟩
      (afterSet ⟨some .«local», some "x", some "a", some (.bool false)⟩ emptyState)
      ≠ .ok (some (.bool false)) := by
  refine ⟨rfl, ?_⟩
  have h : get ⟨some .«local», some "x", some "a", none⟩
      (afterSet ⟨some .«local», some "x", some "a", some (.bool false)⟩ emptyState)
      = .ok none := rfl
  simp [h]

/-- C2, amended: for a *truthy* value V, a *nonempty* item I, and a decoded
Record that is an object (in particular when the entry is absent),
`set({item: I, value: V})` succeeds, `get(item: I)` afterwards returns V,
and `get(item: J)` for every other nonempty field J returns the same value
it returned before the `set`. -/
theorem c2_item_set_get (t : StorageType) (n i : String) (v : JSValue)
    (st : StorageState) (fields : Entries)
    (hn : n ≠ "") (hi : i ≠ "") (hv : truthy v = true)
    (hrec : decodedRecord t st n = .obj fields) :
    ∃ st', set ⟨some t, some n, some i, some v⟩ st = .ok st'
      ∧ get ⟨some t, some n, some i, none⟩ st' = .ok (some v)
      ∧ ∀ j, j ≠ i → j ≠ "" →
          get ⟨some t, some n, some j, none⟩ st'
            = get ⟨some t, some n, some j, none⟩ st := by
  have hib : (i != "") = true := by simpa using hi
  refine ⟨setStorageEntry t st n (.obj (setEntry fields i v)), ?_, ?_, ?_⟩
  · simp [set, ensureParams_type_name_value_ok t n v hn hv, hib, hrec, propSet]
  · simp [get, ensureParams_type_name_ok t n hn, hib,
      decodedRecord_setStorageEntry_self, propGet, getEntry_setEntry_self]
  · intro j hj hj0
    have hjb : (j != "") = true := by simpa using hj0
    simp [get, ensureParams_type_name_ok t n hn, hjb,
      decodedRecord_setStorageEntry_self, propGet, hrec,
      getEntry_setEntry_other _ _ _ _ hj]

theorem c2_item_set_get_witness :
    ∃ st', set ⟨some .«local», some "x", some "a", some (.num 9)⟩ stObj = .ok st'
      ∧ get ⟨some .«local», some "x", some "a", none⟩ st' = .ok (some (.num 9))
      ∧ get ⟨some .«local», some "x", some "b", none⟩ st'
          = get ⟨some .«local», some "x", some "b", none⟩ stObj := by
  obtain ⟨st', h1, h2, h3⟩ :=
    c2_item_set_get .«local» "x" "a" (.num 9) stObj [("a", .num 1), ("b", .num 2)]
      (by decide) (by decide) rfl rfl
  exact ⟨st', h1, h2, h3 "b" (by decide) (by decide)⟩

/-- C3: the chained mutators end in `return this`, but they are arrow
functions inside a module-level arrow IIFE, so `this` is the lexical
`this` of an ES module — `undefined` — and never a reference to the bound
accessor object; a further chained call on the returned value would throw.
Evaluated here at the README's own example: each mutator returns `none`
(undefined), not the accessor. -/
theorem c3_chain_mutators_return_undefined :
    ChainAccessor.set (chain .«local» "userData") "userId" (.num 456) emptyState
      = .ok (none, ⟨[("userData", .obj [("userId", .num 456)])], []⟩)
  ∧ ChainAccessor.remove (chain .«local» "userData") "userId"
      ⟨[("userData", .obj [("userId", .num 456)])], []⟩
      = .ok (none, ⟨[("userData", .obj [])], []⟩)
  ∧ ChainAccessor.clear (chain .«local» "userData")
      ⟨[("userData", .obj [])], []⟩
      = (none, emptyState) :=
  ⟨rfl, rfl, rfl⟩

/-- C4: a required field that is absent or falsy makes the operation throw
`缺少参数: <field>` naming that field, before any storage access: `type` is
required by all four operations, `name` by `get`/`set`/`remove`, and
`value` additionally by `set`; an erroring `set`/`remove`/`clear` leaves
the stored state unchanged. -/
theorem c4_missing_parameter :
    (∀ nO iO vO st,
        get ⟨none, nO, iO, vO⟩ st = .error (.missingParameter "type")
      ∧ set ⟨none, nO, iO, vO⟩ st = .error (.missingParameter "type")
      ∧ remove ⟨none, nO, iO, vO⟩ st = .error (.missingParameter "type")
      ∧ clear ⟨none, nO, iO, vO⟩ st = .error (.missingParameter "type"))
  ∧ (∀ t nO iO vO st, nO.getD "" = "" →
        get ⟨some t, nO, iO, vO⟩ st = .error (.missingParameter "name")
      ∧ set ⟨some t, nO, iO, vO⟩ st = .error (.missingParameter "name")
      ∧ remove ⟨some t, nO, iO, vO⟩ st = .error (.missingParameter "name"))
  ∧ (∀ t n iO vO st, (vO.map truthy).getD false = false →
        set ⟨some t, some n, iO, vO⟩ st = .error (.missingParameter "value")
          ∨ set ⟨some t, some n, iO, vO⟩ st = .error (.missingParameter "name"))
  ∧ (∀ param, errorMessage (.missingParameter param) = "缺少参数: " ++ param)
  ∧ (∀ props st e, set props st = .error e → afterSet props st = st)
  ∧ (∀ props st e, remove props st = .error e → afterRemove props st = st)
  ∧ (∀ props st e, clear props st = .error e → afterClear props st = st) := by
  refine ⟨?_, ?_, ?_, fun _ => rfl, ?_, ?_, ?_⟩
  · intro nO iO vO st
    refine ⟨?_, ?_, ?_, ?_⟩ <;> simp [get, set, remove, clear, ensureParams, propField]
  · intro t nO iO vO st h
    refine ⟨?_, ?_, ?_⟩ <;> simp [get, set, remove, ensureParams, propField, h]
  · intro t n iO vO st hv
    by_cases hn : n = ""
    · right
      simp [set, ensureParams, propField, hn]
    · left
      have hb : (n != "") = true := by simpa using hn
      simp [set, ensureParams, propField, hb, hv]
  · intro props st e h
    simp [afterSet, h]
  · intro props st e h
    simp [afterRemove, h]
  · intro props st e h
    simp [afterClear, h]

theorem c4_missing_parameter_witness :
    get ⟨none, some "x", none, none⟩ emptyState = .error (.missingParameter "type")
  ∧ remove ⟨some .«local», none, none, none⟩ emptyState
      = .error (.missingParameter "name")
  ∧ (set ⟨some .«local», some "x", none, none⟩ emptyState
        = .error (.missingParameter "value")
      ∨ set ⟨some .«local», some "x", none, none⟩ emptyState
        = .error (.missingParameter "name"))
  ∧ afterSet ⟨some .«local», some "x", none, none⟩ emptyState = emptyState :=
  ⟨(c4_missing_parameter.1 (some "x") none none emptyState).1,
   (c4_missing_parameter.2.1 .«local» none none none emptyState rfl).2.2,
   c4_missing_parameter.2.2.1 .«local» "x" none none emptyState rfl,
   c4_missing_parameter.2.2.2.2.1 _ _ (.missingParameter "value") rfl⟩

/-- C5, counterexample: `null` is well-formed JSON, and the item `a` is
absent from a `null` Record, yet item-qualified `get` and `remove` both
throw a `TypeError` (reading or deleting a property of `null`). -/
theorem c5_null_record_counterexample :
    get ⟨some .«local», some "x", some "a", none⟩ stNull = .error .typeError
  ∧ remove ⟨some .«local», some "x", some "a", none⟩ stNull = .error .typeError :=
  ⟨rfl, rfl⟩

/-- C5, amended: when the entry is absent or the decoded Record is an
object lacking the addressed nonempty item, `get` returns `undefined` and
`remove` succeeds leaving the Record content unchanged; moreover on a
missing name, item-less `get` returns the empty mapping and item-less
`remove` is a no-op on the state.  (A stored `null` Record instead makes
item access throw, see the counterexample.) -/
theorem c5_get_remove_missing (t : StorageType) (n i : String) (st : StorageState)
    (fields : Entries) (hn : n ≠ "") (hi : i ≠ "")
    (hrec : decodedRecord t st n = .obj fields) (habs : getEntry fields i = none) :
    get ⟨some t, some n, some i, none⟩ st = .ok none
  ∧ (∃ st', remove ⟨some t, some n, some i, none⟩ st = .ok st'
        ∧ decodedRecord t st' n = .obj fields)
  ∧ (getEntry (storageOf t st) n = none →
        get ⟨some t, some n, none, none⟩ st = .ok (some (.obj [])))
  ∧ (getEntry (storageOf t st) n = none →
        remove ⟨some t, some n, none, none⟩ st = .ok st) := by
  have hib : (i != "") = true := by simpa using hi
  refine ⟨?_, ⟨setStorageEntry t st n (.obj (delEntry fields i)), ?_, ?_⟩, ?_, ?_⟩
  · simp [get, ensureParams_type_name_ok t n hn, hib, hrec, propGet, habs]
  · simp [remove, ensureParams_type_name_ok t n hn, hib, hrec, propDelete]
  · simp [decodedRecord_setStorageEntry_self, delEntry_absent _ _ habs]
  · intro h
    simp [get, ensureParams_type_name_ok t n hn, decodedRecord, h]
  · intro h
    simp [remove, ensureParams_type_name_ok t n hn, removeStorageEntry_absent t st n h]

theorem c5_get_remove_missing_witness :
    get ⟨some .«local», some "x", some "a", none⟩ emptyState = .ok none
  ∧ (∃ st', remove ⟨some .«local», some "x", some "a", none⟩ emptyState = .ok st'
        ∧ decodedRecord .«local» st' "x" = .obj [])
  ∧ get ⟨some .«local», some "x", none, none⟩ emptyState = .ok (some (.obj []))
  ∧ remove ⟨some .«local», some "x", none, none⟩ emptyState = .ok emptyState := by
  obtain ⟨h1, h2, h3, h4⟩ :=
    c5_get_remove_missing .«local» "x" "a" emptyState [] (by decide) (by decide) rfl rfl
  exact ⟨h1, h2, h3 rfl, h4 rfl⟩

/-- C6, counterexample: with the well-formed JSON text `null` stored under
the name, the first item-qualified `remove` already throws a `TypeError`
(so the second call throws as well, not "no error"), and `get(item)` after
the attempted removal throws instead of returning `undefined`. -/
theorem c6_null_record_remove_counterexample :
    remove ⟨some .«local», some "x", some "a", none⟩
      (afterRemove ⟨some .«local», some "x", some "a", none⟩ stNull)
      = .error .typeError
  ∧ get ⟨some .«local», some "x", some "a", none⟩
      (afterRemove ⟨some .«local», some "x", some "a", none⟩ stNull)
      ≠ .ok none := by
  refine ⟨rfl, ?_⟩
  have h : get ⟨some .«local», some "x", some "a", none⟩
      (afterRemove ⟨some .«local», some "x", some "a", none⟩ stNull)
      = .error .typeError := rfl
  simp [h]

/-- C6, amended: for a nonempty item I and a decoded Record that is an
object (in particular when the entry is absent), `remove(item: I)` twice
leaves the state identical to calling it once with no error on the second
call, `get(item: I)` afterwards returns `undefined`, and every other
nonempty field is unaffected. -/
theorem c6_remove_item_idempotent (t : StorageType) (n i : String)
    (st : StorageState) (fields : Entries) (hn : n ≠ "") (hi : i ≠ "")
    (hrec : decodedRecord t st n = .obj fields) :
    ∃ st1, remove ⟨some t, some n, some i, none⟩ st = .ok st1
      ∧ remove ⟨some t, some n, some i, none⟩ st1 = .ok st1
      ∧ get ⟨some t, some n, some i, none⟩ st1 = .ok none
      ∧ ∀ j, j ≠ i → j ≠ "" →
          get ⟨some t, some n, some j, none⟩ st1
            = get ⟨some t, some n, some j, none⟩ st := by
  have hib : (i != "") = true := by simpa using hi
  refine ⟨setStorageEntry t st n (.obj (delEntry fields i)), ?_, ?_, ?_, ?_⟩
  · simp [remove, ensureParams_type_name_ok t n hn, hib, hrec, propDelete]
  · simp [remove, ensureParams_type_name_ok t n hn, hib,
      decodedRecord_setStorageEntry_self, propDelete, delEntry_delEntry,
      setStorageEntry_setStorageEntry_self]
  · simp [get, ensureParams_type_name_ok t n hn, hib,
      decodedRecord_setStorageEntry_self, propGet, getEntry_delEntry_self]
  · intro j hj hj0
    have hjb : (j != "") = true := by simpa using hj0
    simp [get, ensureParams_type_name_ok t n hn, hjb,
      decodedRecord_setStorageEntry_self, propGet, hrec,
      getEntry_delEntry_other _ _ _ hj]

theorem c6_remove_item_idempotent_witness :
    ∃ st1, remove ⟨some .«local», some "x", some "a", none⟩ stObj = .ok st1
      ∧ remove ⟨some .«local», some "x", some "a", none⟩ st1 = .ok st1
      ∧ get ⟨some .«local», some "x", some "a", none⟩ st1 = .ok none
      ∧ get ⟨some .«local», some "x", some "b", none⟩ st1
          = get ⟨some .«local», some "x", some "b", none⟩ stObj := by
  obtain ⟨st1, h1, h2, h3, h4⟩ :=
    c6_remove_item_idempotent .«local» "x" "a" stObj [("a", .num 1), ("b", .num 2)]
      (by decide) (by decide) rfl
  exact ⟨st1, h1, h2, h3, h4 "b" (by decide) (by decide)⟩

/-- C7: after `clear({type: T})`, `get` on every name in namespace T
returns the empty mapping, and the other namespace's store is untouched. -/
theorem c7_clear_frame (t : StorageType) (n : String) (st : StorageState)
    (hn : n ≠ "") :
    ∃ st', clear ⟨some t, none, none, none⟩ st = .ok st'
      ∧ get ⟨some t, some n, none, none⟩ st' = .ok (some (.obj []))
      ∧ storageOf (other t) st' = storageOf (other t) st := by
  refine ⟨clearStorage t st, ?_, ?_, storageOf_clearStorage_other t st⟩
  · simp [clear, ensureParams_type_ok]
  · simp [get, ensureParams_type_name_ok t n hn, decodedRecord,
      storageOf_clearStorage_self, getEntry]

theorem c7_clear_frame_witness :
    ∃ st', clear ⟨some .«local», none, none, none⟩ stObj = .ok st'
      ∧ get ⟨some .«local», some "x", none, none⟩ st' = .ok (some (.obj []))
      ∧ storageOf (other .«local») st' = storageOf (other .«local») stObj :=
  c7_clear_frame .«local» "x" stObj (by decide)

/-- C8: an empty-string `item` is falsy, so `get`, `set` and `remove`
behave exactly as if `item` were omitted: `get` returns the whole decoded
Record, `set` replaces the entire Record with `value`, and `remove`
deletes the whole stored entry. -/
theorem c8_empty_item_like_omitted (tO : Option StorageType) (nO : Option String)
    (vO : Option JSValue) (st : StorageState) :
    get ⟨tO, nO, some "", vO⟩ st = get ⟨tO, nO, none, vO⟩ st
  ∧ set ⟨tO, nO, some "", vO⟩ st = set ⟨tO, nO, none, vO⟩ st
  ∧ remove ⟨tO, nO, some "", vO⟩ st = remove ⟨tO, nO, none, vO⟩ st :=
  ⟨rfl, rfl, rfl⟩

/-- C9: item-qualified `remove` on a name with no stored entry decodes the
default empty mapping, deletes the (absent) field, and writes the result
back: the entry transitions from absent to present, holding the empty
object — whose JSON encoding is the text of two braces. -/
theorem c9_remove_item_materializes_empty (t : StorageType) (n i : String)
    (st : StorageState) (hn : n ≠ "") (hi : i ≠ "")
    (habs : getEntry (storageOf t st) n = none) :
    ∃ st', remove ⟨some t, some n, some i, none⟩ st = .ok st'
      ∧ getEntry (storageOf t st') n = some (.obj [])
      ∧ stringify (.obj []) = "\x7b\x7d" := by
  have hib : (i != "") = true := by simpa using hi
  refine ⟨setStorageEntry t st n (.obj []), ?_, ?_, rfl⟩
  · simp [remove, ensureParams_type_name_ok t n hn, hib, decodedRecord, habs,
      propDelete, delEntry]
  · simp [storageOf_setStorageEntry_self, getEntry_setEntry_self]

theorem c9_remove_item_materializes_empty_witness :
    ∃ st', remove ⟨some .«local», some "x", some "a", none⟩ emptyState = .ok st'
      ∧ getEntry (storageOf .«local» st') "x" = some (.obj [])
      ∧ stringify (.obj []) = "\x7b\x7d" :=
  c9_remove_item_materializes_empty .«local» "x" "a" emptyState
    (by decide) (by decide) rfl

/-- C10, counterexample: with the number `5` stored under the name, the
sources are ES modules (strict-mode code), so the field assignment
`storedData[item] = value` on the primitive throws a `TypeError` — the
assignment is not silently lost and no re-encoded text is written. -/
theorem c10_primitive_set_counterexample :
    set ⟨some .«local», some "x", some "a", some (.num 7)⟩ stNum
      = .error .typeError
  ∧ ∀ st', set ⟨some .«local», some "x", some "a", some (.num 7)⟩ stNum
      ≠ .ok st' := by
  refine ⟨rfl, ?_⟩
  intro st'
  have h : set ⟨some .«local», some "x", some "a", some (.num 7)⟩ stNum
      = .error .typeError := rfl
  simp [h]

/-- C10, amended: when the decoded Record is a non-object JSON primitive
(`null`, boolean, number or string), item-qualified `set` with a truthy
value and nonempty item throws a `TypeError` (strict-mode property
creation on a primitive) and performs no write: the stored entry still
holds the original primitive. -/
theorem c10_primitive_set_throws (t : StorageType) (n i : String) (v : JSValue)
    (st : StorageState) (hn : n ≠ "") (hi : i ≠ "") (hv : truthy v = true)
    (hprim : isNonObjectPrimitive (decodedRecord t st n) = true) :
    set ⟨some t, some n, some i, some v⟩ st = .error .typeError
  ∧ afterSet ⟨some t, some n, some i, some v⟩ st = st := by
  have hib : (i != "") = true := by simpa using hi
  have hps : propSet (decodedRecord t st n) i v = .error .typeError := by
    rcases hr : decodedRecord t st n with _ | b | m | s | es | fs
    · rfl
    · rfl
    · rfl
    · rfl
    · rw [hr] at hprim
      simp [isNonObjectPrimitive] at hprim
    · rw [hr] at hprim
      simp [isNonObjectPrimitive] at hprim
  have hset : set ⟨some t, some n, some i, some v⟩ st = .error .typeError := by
    simp [set, ensureParams_type_name_value_ok t n v hn hv, hib, hps]
  exact ⟨hset, by simp [afterSet, hset]⟩

theorem c10_primitive_set_throws_witness :
    set ⟨some .«local», some "x", some "a", some (.num 7)⟩ stNum
      = .error .typeError
  ∧ afterSet ⟨some .«local», some "x", some "a", some (.num 7)⟩ stNum = stNum :=
  c10_primitive_set_throws .«local» "x" "a" (.num 7) stNum
    (by decide) (by decide) rfl rfl

end StorageUtil
